import Mathlib

/-!
Verification of the tagged value model and structural type system of
`src/style-spec/expression/values.ts` (maplibre-gl-js): the operations
`validateRGBA`, `isValue`, `typeOf` and `toString` over the expression
language's runtime values, embedded shallowly in Lean.
-/

namespace MaplibreValues

/-- A JavaScript number as manipulated by values.ts: a finite value
(embedded as a rational, which contains every numeric literal the code
compares against), or one of the special values NaN, Infinity, -Infinity.
The code only observes numbers through `typeof`, ordered comparison and
string conversion. -/
inductive JSNum where
  | fin (q : ℚ)
  | nan
  | inf
  | negInf
deriving DecidableEq

/-- JavaScript `<=` restricted to numbers: any comparison with NaN is
false; -Infinity is below and Infinity above every number. -/
def JSNum.jsle : JSNum → JSNum → Bool
  | .nan, _ => false
  | _, .nan => false
  | .negInf, _ => true
  | _, .negInf => false
  | _, .inf => true
  | .inf, _ => false
  | .fin a, .fin b => decide (a ≤ b)

/-- JavaScript `>=` on numbers: `a >= b` holds exactly when `b <= a`
(both are false as soon as one side is NaN). -/
def JSNum.jsge (a b : JSNum) : Bool := JSNum.jsle b a

/-- A JavaScript runtime value as far as values.ts can distinguish one:
the `unknown` arguments of `validateRGBA` and `isValue` and the legal
`Value`s of `typeOf`/`toString` all live here.  The five wrapper kinds
(Color, Collator, Formatted, Padding, ResolvedImage) are opaque to
values.ts; modelled from the spec: each wrapper is "treated here as an
opaque value kind with a constructor contract and a `toString` contract",
so a wrapper carries only its canonical string form (Collator has no
custom toString and is carried bare).  `func`, `symbol` and `date`
stand for a function value, a symbol and a Date instance. -/
inductive JSVal where
  | undef
  | null
  | num (n : JSNum)
  | str (s : String)
  | boolean (b : Bool)
  | color (s : String)
  | collator
  | formatted (s : String)
  | padding (s : String)
  | resolvedImage (s : String)
  | func
  | symbol
  | date
  | array (items : List JSVal)
  | object (props : List (String × JSVal))

/-- The JavaScript `typeof` operator on the embedded values.  Note that
`typeof null` is "object", a Date instance is "object", and a function
is "function". -/
def typeofStr : JSVal → String
  | .undef => "undefined"
  | .null => "object"
  | .num _ => "number"
  | .str _ => "string"
  | .boolean _ => "boolean"
  | .color _ => "object"
  | .collator => "object"
  | .formatted _ => "object"
  | .padding _ => "object"
  | .resolvedImage _ => "object"
  | .func => "function"
  | .symbol => "symbol"
  | .date => "object"
  | .array _ => "object"
  | .object _ => "object"

/-- Modelled from the spec: the Type descriptors of expression/types.ts
(not under src/).  "The non-parametric type descriptors (Null, Number,
String, Boolean, Color, Object, Collator, Formatted, ResolvedImage,
Padding, the top Value type) are singletons", and
"Array(itemType, length)" is parametric with an optional length. -/
inductive Ty where
  | null
  | number
  | string
  | boolean
  | color
  | object
  | value
  | collator
  | formatted
  | resolvedImage
  | padding
  | array (itemType : Ty) (n : Option Nat)
deriving DecidableEq

def NullType : Ty := Ty.null
def NumberType : Ty := Ty.number
def StringType : Ty := Ty.string
def BooleanType : Ty := Ty.boolean
def ColorType : Ty := Ty.color
def ObjectType : Ty := Ty.object
def ValueType : Ty := Ty.value
def CollatorType : Ty := Ty.collator
def FormattedType : Ty := Ty.formatted
def ResolvedImageType : Ty := Ty.resolvedImage
def PaddingType : Ty := Ty.padding

/-- Modelled from the spec: the parametric `array(itemType, n)` factory of
types.ts; every call allocates a fresh descriptor object. -/
def array (itemType : Ty) (n : Option Nat) : Ty := Ty.array itemType n

/-- Whether a descriptor is a parametric Array type (as opposed to one of
the singleton constants). -/
def Ty.isArr : Ty → Bool
  | .array _ _ => true
  | _ => false

/-- Modelled from the spec: JavaScript reference equality (`===`) between
two Type descriptors produced by separate calls of `typeOf`/`array`.
The singleton descriptors are process-wide constants, so two of them are
the same reference exactly when they are the same kind; the `array`
factory allocates a fresh object on every call, so two separately
produced Array descriptors are never reference-equal (spec §3:
"type equality for these is reference/identity equality"; §4.1:
"two independently-constructed Array(Number, 2) and Array(Number, 1)
are not identity-equal"). -/
def identEq (t u : Ty) : Bool :=
  if t.isArr || u.isArr then false else decide (t = u)

/-- Multiplicity of the prime `p` in `n`, computed with fuel (`fuel ≥ n`
suffices).  Used to recognize denominators of the form `2^a * 5^b`. -/
def multCount (p : Nat) : Nat → Nat → Nat
  | 0, _ => 0
  | fuel + 1, n => if n % p == 0 && n != 0 && p > 1 then 1 + multCount p fuel (n / p) else 0

/-- Decimal rendering of a rational: models ECMAScript `ToString` on a
number whose exact value the rational carries.  Every numeric value the
claims exercise is an exactly representable decimal (denominator
`2^a * 5^b`), for which JavaScript prints the terminating decimal
expansion without trailing zeros, which is what this computes; rationals
outside that range (which no JavaScript double that prints in decimal
form produces) fall back to a deterministic fraction form. -/
def decStr (q : ℚ) : String :=
  let den := q.den
  let a := multCount 2 den den
  let b := multCount 5 den den
  let k := max a b
  if den = 2 ^ a * 5 ^ b then
    let m : Int := q.num * (2 ^ (k - a) : Nat) * (5 ^ (k - b) : Nat)
    let sign := if m < 0 then "-" else ""
    let dl := (Nat.repr m.natAbs).data
    if k = 0 then
      sign ++ String.mk dl
    else
      let dl2 := if dl.length ≤ k then List.replicate (k + 1 - dl.length) '0' ++ dl else dl
      sign ++ String.mk (dl2.take (dl2.length - k)) ++ "." ++ String.mk (dl2.drop (dl2.length - k))
  else
    Int.repr q.num ++ "/" ++ Nat.repr q.den

/-- ECMAScript `ToString` of a number: the decimal rendering for finite
values, and the fixed spellings of the three special values. -/
def JSNum.toStr : JSNum → String
  | .fin q => decStr q
  | .nan => "NaN"
  | .inf => "Infinity"
  | .negInf => "-Infinity"

mutual

/-- How `Array.prototype.join` converts one element to text: `null` and
`undefined` become the empty string, every other element goes through
`ToString`: a number through the ECMAScript number conversion, a string
unchanged, a wrapper through its canonical toString, a plain object or a
Collator (no custom toString) as "[object Object]", and a nested array
as its own comma-join.  Two cases carry host text the embedding cannot
determine and are placeholders excluded from the faithful scope (see
`echoExact`): a function renders as its source text and a Date as a
locale-dependent date string.  `ToString` of a Symbol does not produce a
string at all — it throws a TypeError, tracked by `elemThrows` — so the
symbol case is unreachable in a non-throwing join and its value here is
immaterial. -/
def joinElemStr : JSVal → String
  | .undef => ""
  | .null => ""
  | .num n => n.toStr
  | .str s => s
  | .boolean b => if b then "true" else "false"
  | .color s => s
  | .formatted s => s
  | .padding s => s
  | .resolvedImage s => s
  | .collator => "[object Object]"
  | .func => "function"
  | .symbol => ""
  | .date => "[object Date]"
  | .array xs => joinListComma xs
  | .object _ => "[object Object]"

/-- The `ToString` of an array value: its elements joined with a bare
comma (`Array.prototype.toString` delegates to `join(',')`). -/
def joinListComma : List JSVal → String
  | [] => ""
  | [x] => joinElemStr x
  | x :: y :: rest => joinElemStr x ++ "," ++ joinListComma (y :: rest)

end

mutual

/-- Whether `ToString` of this element, as invoked by
`Array.prototype.join`, throws: `ToString` of a Symbol throws a
TypeError, and an array's `ToString` is its own join, which recurses
into its elements (`null` and `undefined` are rendered empty without a
`ToString` call, and their `elemThrows` is false anyway). -/
def elemThrows : JSVal → Bool
  | .symbol => true
  | .array xs => anyElemThrows xs
  | _ => false

/-- Whether joining this element list throws: some element's `ToString`
throws. -/
def anyElemThrows : List JSVal → Bool
  | [] => false
  | x :: rest => elemThrows x || anyElemThrows rest

end

mutual

/-- The values whose join text the embedding renders exactly: null,
undefined, numbers, strings, booleans, the wrappers (canonical string),
Collator and plain objects ("[object Object]"), and arrays of such
values.  Functions and Dates render host-dependent text (function
source, locale date string) the embedding cannot pin down, and a
Symbol's `ToString` throws, so those are excluded. -/
def echoExact : JSVal → Bool
  | .undef => true
  | .null => true
  | .num _ => true
  | .str _ => true
  | .boolean _ => true
  | .color _ => true
  | .collator => true
  | .formatted _ => true
  | .padding _ => true
  | .resolvedImage _ => true
  | .object _ => true
  | .array xs => allEchoExact xs
  | .func => false
  | .symbol => false
  | .date => false

/-- Every element of the list is rendered exactly. -/
def allEchoExact : List JSVal → Bool
  | [] => true
  | x :: rest => echoExact x && allEchoExact rest

end

/-- The join `value.join(', ')`: the element texts separated by a comma and a
space. -/
def joinVals (vs : List JSVal) : String :=
  String.intercalate ", " (vs.map joinElemStr)

/-- The channel test of validateRGBA for one of r, g, b:
`typeof v === 'number' && v >= 0 && v <= 255` (the range comparisons
are reached only when v is a number, so they are JavaScript numeric
comparisons; NaN fails both). -/
def chanCheck (v : JSVal) : Bool :=
  match v with
  | .num n => n.jsge (.fin 0) && n.jsle (.fin 255)
  | _ => false

/-- The alpha test of validateRGBA:
`typeof a === 'undefined' || (typeof a === 'number' && a >= 0 && a <= 1)`. -/
def alphaCheck : JSVal → Bool
  | .undef => true
  | .num n => n.jsge (.fin 0) && n.jsle (.fin 1)
  | _ => false

/-- The r/g/b failure message of validateRGBA: the echoed tuple is
`typeof a === 'number' ? [r, g, b, a] : [r, g, b]`. -/
def rgbMessage (r g b a : JSVal) : String :=
  let value := if typeofStr a == "number" then [r, g, b, a] else [r, g, b]
  "Invalid rgba value [" ++ joinVals value ++ "]: " ++
    "'r', 'g', and 'b' must be between 0 and 255."

/-- The alpha failure message of validateRGBA: always echoes the
4-tuple `[r, g, b, a]`. -/
def alphaMessage (r g b a : JSVal) : String :=
  "Invalid rgba value [" ++ joinVals [r, g, b, a] ++ "]: " ++
    "'a' must be between 0 and 1."

/-- The function `validateRGBA(r, g, b, a?)` of values.ts; an omitted `a` is the
JavaScript `undefined`, i.e. `JSVal.undef`.  Returns `none` for the
source's `null` (no error) and `some msg` for an error message. -/
def validateRGBA (r g b a : JSVal) : Option String :=
  if !(chanCheck r && chanCheck g && chanCheck b) then
    some (rgbMessage r g b a)
  else if !(alphaCheck a) then
    some (alphaMessage r g b a)
  else
    none

/-- Whether the call `validateRGBA(r, g, b, a)` throws instead of
returning: the code reaches `value.join(', ')` only on an error branch,
and the join throws exactly when the echoed tuple contains an element
whose `ToString` throws (a Symbol, possibly inside a nested array). -/
def validateRGBAThrows (r g b a : JSVal) : Bool :=
  if !(chanCheck r && chanCheck g && chanCheck b) then
    anyElemThrows (if typeofStr a == "number" then [r, g, b, a] else [r, g, b])
  else if !(alphaCheck a) then
    anyElemThrows [r, g, b, a]
  else
    false

mutual

/-- The function `isValue(mixed)` of values.ts, by the source's branch order: null,
string, boolean, number, the five wrapper `instanceof` tests,
`Array.isArray`, then `typeof mixed === 'object'` (which a Date instance
also satisfies: the `for...in` loop over its enumerable properties finds
none, so the branch returns true), and `false` for everything else
(undefined, functions, symbols). -/
def isValue : JSVal → Bool
  | .null => true
  | .str _ => true
  | .boolean _ => true
  | .num _ => true
  | .color _ => true
  | .collator => true
  | .formatted _ => true
  | .padding _ => true
  | .resolvedImage _ => true
  | .array xs => isValueItems xs
  | .object kvs => isValueProps kvs
  | .date => true
  | .undef => false
  | .func => false
  | .symbol => false

/-- The `for (const item of mixed)` loop of isValue: returns false at the
first invalid element, true when the list is exhausted. -/
def isValueItems : List JSVal → Bool
  | [] => true
  | x :: rest => if isValue x then isValueItems rest else false

/-- The `for (const key in mixed)` loop of isValue: returns false at the
first key whose value is invalid, true when the keys are exhausted. -/
def isValueProps : List (String × JSVal) → Bool
  | [] => true
  | kv :: rest => if isValue kv.2 then isValueProps rest else false

end

mutual

/-- The function `typeOf(value)` of values.ts, by the source's branch order.  The
final branch (`assert(typeof value === 'object'); return ObjectType`)
is reached by plain objects and Date instances; `undef`, `func` and
`symbol` violate typeOf's precondition (callers guard with isValue, and
the source's assert would fire) and are mapped to the same ObjectType
fall-through. -/
def typeOf : JSVal → Ty
  | .null => NullType
  | .str _ => StringType
  | .boolean _ => BooleanType
  | .num _ => NumberType
  | .color _ => ColorType
  | .collator => CollatorType
  | .formatted _ => FormattedType
  | .padding _ => PaddingType
  | .resolvedImage _ => ResolvedImageType
  | .array xs => array (mergeTypes xs none) (some xs.length)
  | .object _ => ObjectType
  | .date => ObjectType
  | .undef => ObjectType
  | .func => ObjectType
  | .symbol => ObjectType

/-- The item-type loop of typeOf over an array's elements, with the
`itemType` accumulator (`none` = the loop variable is still undefined).
On the first element the computed type is adopted; an element whose type
is reference-equal to the adopted one is skipped; the first mismatch
sets `itemType = ValueType` and breaks.  The returned type is the
source's final `itemType || ValueType`, so the empty array yields
ValueType. -/
def mergeTypes : List JSVal → Option Ty → Ty
  | [], none => ValueType
  | [], some t => t
  | x :: rest, none => mergeTypes rest (some (typeOf x))
  | x :: rest, some t => if identEq t (typeOf x) then mergeTypes rest (some t) else ValueType

end

/-- JSON string escaping as performed by `JSON.stringify` on the
characters the claims exercise (quote, backslash and the common control
characters; other characters are passed through). -/
def jsonEscapeChar (c : Char) : String :=
  if c = '"' then "\\\""
  else if c = '\\' then "\\\\"
  else if c = '\n' then "\\n"
  else if c = '\t' then "\\t"
  else if c = '\r' then "\\r"
  else String.mk [c]

/-- Escape every character of a string for a JSON string literal. -/
def jsonEscape (s : String) : String :=
  String.join (s.data.map jsonEscapeChar)

mutual

/-- The serializer `JSON.stringify` on the embedded values, as `toString` invokes it on
arrays, plain objects and Collator instances.  Finite numbers print in
decimal; NaN and the infinities serialize as `null`; strings are quoted
and escaped; arrays and objects serialize their contents recursively,
object keys in enumeration order.  The cases a well-formed Value never
contains (undefined, functions, symbols inside an array serialize as
`null` in JavaScript; a wrapper or Date serializes through its own
enumerable fields or toJSON) are modelled deterministically and are not
exercised by the claims. -/
def jsonStringify : JSVal → String
  | .null => "null"
  | .num (.fin q) => decStr q
  | .num .nan => "null"
  | .num .inf => "null"
  | .num .negInf => "null"
  | .str s => "\"" ++ jsonEscape s ++ "\""
  | .boolean b => if b then "true" else "false"
  | .array xs => "[" ++ jsonItems xs ++ "]"
  | .object kvs => "\x7b" ++ jsonProps kvs ++ "\x7d"
  | .collator => "\x7b\x7d"
  | .color s => "\"" ++ jsonEscape s ++ "\""
  | .formatted s => "\"" ++ jsonEscape s ++ "\""
  | .padding s => "\"" ++ jsonEscape s ++ "\""
  | .resolvedImage s => "\"" ++ jsonEscape s ++ "\""
  | .date => "\"date\""
  | .undef => "null"
  | .func => "null"
  | .symbol => "null"

/-- The elements of an array in a JSON serialization, comma-separated. -/
def jsonItems : List JSVal → String
  | [] => ""
  | [x] => jsonStringify x
  | x :: y :: rest => jsonStringify x ++ "," ++ jsonItems (y :: rest)

/-- The key/value fields of an object in a JSON serialization, in
enumeration order, comma-separated. -/
def jsonProps : List (String × JSVal) → String
  | [] => ""
  | [kv] => "\"" ++ jsonEscape kv.1 ++ "\":" ++ jsonStringify kv.2
  | kv :: lw :: rest => "\"" ++ jsonEscape kv.1 ++ "\":" ++ jsonStringify kv.2 ++ "," ++ jsonProps (lw :: rest)

end

/-- The function `toString(value)` of values.ts: empty string for null; `String(value)`
for the string/number/boolean primitives; the wrapper's own toString for
Color, Formatted, Padding and ResolvedImage; `JSON.stringify(value)` for
everything else (arrays, plain objects, Collator). -/
def toString (value : JSVal) : String :=
  match value with
  | .null => ""
  | .str s => s
  | .num n => n.toStr
  | .boolean b => if b then "true" else "false"
  | .color s => s
  | .formatted s => s
  | .padding s => s
  | .resolvedImage s => s
  | v => jsonStringify v

/-- Structural induction over the embedded values, with the members of
an array and the values of an object available as inductive hypotheses
through membership (the nested occurrence of `List` calls for a
size-based argument). -/
theorem JSVal.indNested (P : JSVal → Prop)
    (hundef : P .undef) (hnull : P .null) (hnum : ∀ n, P (.num n))
    (hs : ∀ s, P (.str s)) (hb : ∀ b, P (.boolean b)) (hcolor : ∀ s, P (.color s))
    (hcoll : P .collator) (hfmt : ∀ s, P (.formatted s)) (hpad : ∀ s, P (.padding s))
    (hres : ∀ s, P (.resolvedImage s)) (hfunc : P .func) (hsym : P .symbol)
    (hdate : P .date)
    (harr : ∀ xs, (∀ x ∈ xs, P x) → P (.array xs))
    (hobj : ∀ kvs, (∀ kv ∈ kvs, P kv.2) → P (.object kvs)) :
    ∀ v, P v := by
  have key : ∀ n (v : JSVal), sizeOf v ≤ n → P v := by
    intro n
    induction n with
    | zero =>
      intro v hv
      exfalso
      cases v <;> simp at hv
    | succ n ih =>
      intro v hv
      cases v with
      | array xs =>
        refine harr xs (fun x hx => ih x ?_)
        have h1 := List.sizeOf_lt_of_mem hx
        simp at hv
        omega
      | object kvs =>
        refine hobj kvs (fun kv hkv => ih kv.2 ?_)
        have h1 := List.sizeOf_lt_of_mem hkv
        have h2 : sizeOf kv.2 < sizeOf kv := by
          cases kv with
          | mk k x => simp
        simp at hv
        omega
      | undef => exact hundef
      | null => exact hnull
      | num m => exact hnum m
      | str s => exact hs s
      | boolean c => exact hb c
      | color s => exact hcolor s
      | collator => exact hcoll
      | formatted s => exact hfmt s
      | padding s => exact hpad s
      | resolvedImage s => exact hres s
      | func => exact hfunc
      | symbol => exact hsym
      | date => exact hdate
  exact fun v => key (sizeOf v) v (Nat.le_refl _)

/-- The homogeneity-merge algorithm as the specification words it, run on
the sequence of the element types, after the first element's type has
been adopted: each later element whose type is identity-equal to the
adopted type is skipped; at the first non-identical type the result
becomes the top Value type and no further elements are examined. -/
def claimMergeGo : Ty → List Ty → Ty
  | t, [] => t
  | t, u :: us => if identEq t u then claimMergeGo t us else ValueType

/-- The homogeneity-merge algorithm over the element types: the first
element's type is adopted and the rest are merged into it; an empty
sequence yields the top Value type. -/
def claimMerge : List Ty → Ty
  | [] => ValueType
  | t :: ts => claimMergeGo t ts

/-- The specification's criterion for one r/g/b channel: a number in the
closed range [lo, hi] (NaN and the infinities are numbers outside every
closed range). -/
def NumInRange (v : JSVal) (lo hi : ℚ) : Prop :=
  ∃ q : ℚ, v = JSVal.num (.fin q) ∧ lo ≤ q ∧ q ≤ hi

/-- The Value grammar of the specification, with the one amendment the
code forces: a Date instance satisfies `typeof === 'object'` and has no
enumerable properties, so it is accepted as a keyed mapping.  Functions,
undefined and symbols do not conform. -/
inductive Conforms : JSVal → Prop where
  | nullv : Conforms .null
  | strv (s) : Conforms (.str s)
  | boolv (b) : Conforms (.boolean b)
  | numv (n) : Conforms (.num n)
  | colorv (s) : Conforms (.color s)
  | collatorv : Conforms .collator
  | formattedv (s) : Conforms (.formatted s)
  | paddingv (s) : Conforms (.padding s)
  | resolvedImagev (s) : Conforms (.resolvedImage s)
  | datev : Conforms .date
  | arrayv (xs) (h : ∀ x ∈ xs, Conforms x) : Conforms (.array xs)
  | objectv (kvs) (h : ∀ kv ∈ kvs, Conforms kv.2) : Conforms (.object kvs)

mutual

/-- Structural equality of two values in the sense of the claim for
toString: identical leaves, arrays pointwise equal in order, and objects
equal as keyed mappings — every key/value field of one has an identically
keyed, structurally equal field in the other, in either direction, with
insertion order irrelevant. -/
inductive StructEq : JSVal → JSVal → Prop where
  | same (v) : StructEq v v
  | arr (xs ys) (h : List.Forall₂ StructEq xs ys) : StructEq (.array xs) (.array ys)
  | obj (kvs lws)
      (h1 : ∀ kv ∈ kvs, HasField kv lws)
      (h2 : ∀ lw ∈ lws, HasField lw kvs) :
      StructEq (.object kvs) (.object lws)

/-- The relation `HasField kv lws`: some field of `lws` carries the same key as `kv`
and a value structurally equal to `kv`'s value. -/
inductive HasField : (String × JSVal) → List (String × JSVal) → Prop where
  | head (kv lw : String × JSVal) (rest : List (String × JSVal))
      (hk : kv.1 = lw.1) (hv : StructEq kv.2 lw.2) : HasField kv (lw :: rest)
  | tail (kv lw : String × JSVal) (rest : List (String × JSVal))
      (h : HasField kv rest) : HasField kv (lw :: rest)

end

mutual

/-- Structural equality with object key order significant: identical
leaves, arrays pointwise equal, objects with the same keys in the same
enumeration order and structurally equal values. -/
def sEq : JSVal → JSVal → Bool
  | .undef, .undef => true
  | .null, .null => true
  | .num a, .num b => decide (a = b)
  | .str a, .str b => a == b
  | .boolean a, .boolean b => a == b
  | .color a, .color b => a == b
  | .collator, .collator => true
  | .formatted a, .formatted b => a == b
  | .padding a, .padding b => a == b
  | .resolvedImage a, .resolvedImage b => a == b
  | .func, .func => true
  | .symbol, .symbol => true
  | .date, .date => true
  | .array xs, .array ys => sEqItems xs ys
  | .object kvs, .object lws => sEqProps kvs lws
  | _, _ => false

/-- Pointwise ordered structural equality of two element lists. -/
def sEqItems : List JSVal → List JSVal → Bool
  | [], [] => true
  | x :: xs, y :: ys => sEq x y && sEqItems xs ys
  | _, _ => false

/-- Pointwise ordered structural equality of two field lists. -/
def sEqProps : List (String × JSVal) → List (String × JSVal) → Bool
  | [], [] => true
  | kv :: kvs, lw :: lws => kv.1 == lw.1 && sEq kv.2 lw.2 && sEqProps kvs lws
  | _, _ => false

end

theorem identEq_arr_left (i : Ty) (n : Option Nat) (u : Ty) :
    identEq (Ty.array i n) u = false := by
  simp [identEq, Ty.isArr]

theorem identEq_self (t : Ty) : identEq t t = !t.isArr := by
  cases h : t.isArr <;> simp [identEq, h]

theorem mergeTypes_eq_claimMergeGo (xs : List JSVal) (t : Ty) :
    mergeTypes xs (some t) = claimMergeGo t (xs.map typeOf) := by
  induction xs generalizing t with
  | nil => rfl
  | cons x rest ih =>
    show (if identEq t (typeOf x) then mergeTypes rest (some t) else ValueType)
        = (if identEq t (typeOf x) then claimMergeGo t (rest.map typeOf) else ValueType)
    by_cases h : identEq t (typeOf x) = true
    · simp [h, ih]
    · simp [h]

/-- C1: for every array value, typeOf returns `Array(itemType, length)`
where the length is the exact element count and the item type is the
homogeneity merge of the element types: the first element's type is
adopted, identity-equal later types are skipped, the first non-identical
type short-circuits to the top Value type, and an empty array yields the
top Value type; in particular `typeOf([]) = Array(Value, 0)`,
`typeOf([1,2,3]) = Array(Number, 3)` and `typeOf([1,"a"]) = Array(Value, 2)`. -/
theorem claim1_typeOf_array_merge (xs : List JSVal) :
    typeOf (.array xs) = array (claimMerge (xs.map typeOf)) (some xs.length) ∧
    typeOf (.array []) = array ValueType (some 0) ∧
    typeOf (.array [.num (.fin 1), .num (.fin 2), .num (.fin 3)]) = array NumberType (some 3) ∧
    typeOf (.array [.num (.fin 1), .str "a"]) = array ValueType (some 2) := by
  refine ⟨?_, by decide, by decide, by decide⟩
  cases xs with
  | nil => rfl
  | cons x rest =>
    show array (mergeTypes rest (some (typeOf x))) (some (rest.length + 1))
        = array (claimMergeGo (typeOf x) (rest.map typeOf)) (some (rest.length + 1))
    rw [mergeTypes_eq_claimMergeGo]

/-- C2: an outer array whose elements are all arrays, two of them of
differing lengths, gets the top Value type as its item type: the merge
compares item types by identity, and two separately produced parametric
Array descriptors are never identity-equal. -/
theorem claim2_nested_arrays (xs : List (List JSVal))
    (h : ∃ a ∈ xs, ∃ b ∈ xs, a.length ≠ b.length) :
    typeOf (.array (xs.map JSVal.array)) = array ValueType (some xs.length) := by
  match xs with
  | [] =>
    rcases h with ⟨a, ha, _⟩
    simp at ha
  | [a] =>
    rcases h with ⟨x, hx, y, hy, hxy⟩
    simp at hx hy
    subst hx
    subst hy
    exact absurd rfl hxy
  | a :: b :: rest =>
    have key : typeOf (.array (List.map JSVal.array (a :: b :: rest)))
        = array ValueType (some (List.map JSVal.array (a :: b :: rest)).length) := by
      show array
          (if identEq (typeOf (JSVal.array a)) (typeOf (JSVal.array b)) then
            mergeTypes (rest.map JSVal.array) (some (typeOf (JSVal.array a)))
          else ValueType) _ = _
      rw [show typeOf (JSVal.array a) = Ty.array (mergeTypes a none) (some a.length) from rfl,
        identEq_arr_left]
      simp
    simpa using key

/-- C2 witness: the concrete nested array `[[1,2],[3]]` from the claim. -/
theorem claim2_witness :
    (∃ a ∈ [[JSVal.num (.fin 1), JSVal.num (.fin 2)], [JSVal.num (.fin 3)]],
      ∃ b ∈ [[JSVal.num (.fin 1), JSVal.num (.fin 2)], [JSVal.num (.fin 3)]],
        a.length ≠ b.length) ∧
    typeOf (.array (([[JSVal.num (.fin 1), JSVal.num (.fin 2)],
        [JSVal.num (.fin 3)]]).map JSVal.array)) = array ValueType (some 2) := by
  have hex : ∃ a ∈ [[JSVal.num (.fin 1), JSVal.num (.fin 2)], [JSVal.num (.fin 3)]],
      ∃ b ∈ [[JSVal.num (.fin 1), JSVal.num (.fin 2)], [JSVal.num (.fin 3)]],
        a.length ≠ b.length := by
    refine ⟨[JSVal.num (.fin 1), JSVal.num (.fin 2)], by simp,
      [JSVal.num (.fin 3)], by simp, by decide⟩
  exact ⟨hex, claim2_nested_arrays _ hex⟩

/-- C3: any numbers r, g, b in [0, 255] with a omitted or a number in
[0, 1] pass validateRGBA with no error. -/
theorem claim3_valid_rgba (r g b : ℚ) (a : JSVal)
    (hr0 : 0 ≤ r) (hr1 : r ≤ 255) (hg0 : 0 ≤ g) (hg1 : g ≤ 255)
    (hb0 : 0 ≤ b) (hb1 : b ≤ 255)
    (ha : a = JSVal.undef ∨ ∃ q : ℚ, a = JSVal.num (.fin q) ∧ 0 ≤ q ∧ q ≤ 1) :
    validateRGBA (.num (.fin r)) (.num (.fin g)) (.num (.fin b)) a = none := by
  have hcr : chanCheck (.num (.fin r)) = true := by
    simp [chanCheck, JSNum.jsge, JSNum.jsle, hr0, hr1]
  have hcg : chanCheck (.num (.fin g)) = true := by
    simp [chanCheck, JSNum.jsge, JSNum.jsle, hg0, hg1]
  have hcb : chanCheck (.num (.fin b)) = true := by
    simp [chanCheck, JSNum.jsge, JSNum.jsle, hb0, hb1]
  have hca : alphaCheck a = true := by
    rcases ha with rfl | ⟨q, rfl, hq0, hq1⟩
    · rfl
    · simp [alphaCheck, JSNum.jsge, JSNum.jsle, hq0, hq1]
  simp [validateRGBA, hcr, hcg, hcb, hca]

/-- C3 witness: validateRGBA(12, 255, 0, 0.5) reports no error. -/
theorem claim3_witness :
    ((0:ℚ) ≤ 12 ∧ (12:ℚ) ≤ 255 ∧ (0:ℚ) ≤ Rat.divInt 1 2 ∧ Rat.divInt 1 2 ≤ 1) ∧
    validateRGBA (.num (.fin 12)) (.num (.fin 255)) (.num (.fin 0))
      (.num (.fin (Rat.divInt 1 2))) = none := by
  have h1 : (0:ℚ) ≤ 12 := by norm_num
  have h2 : (12:ℚ) ≤ 255 := by norm_num
  have h3 : (0:ℚ) ≤ Rat.divInt 1 2 := by rw [Rat.divInt_eq_div]; norm_num
  have h4 : Rat.divInt 1 2 ≤ 1 := by rw [Rat.divInt_eq_div]; norm_num
  exact ⟨⟨h1, h2, h3, h4⟩,
    claim3_valid_rgba 12 255 0 _ h1 h2 (by norm_num) (by norm_num) (by norm_num) (by norm_num)
      (Or.inr ⟨Rat.divInt 1 2, rfl, h3, h4⟩)⟩

theorem chanCheck_iff (v : JSVal) : chanCheck v = true ↔ NumInRange v 0 255 := by
  cases v <;> simp [chanCheck, NumInRange]
  rename_i n
  cases n <;> simp [JSNum.jsge, JSNum.jsle]

theorem alphaCheck_iff (a : JSVal) :
    alphaCheck a = true ↔ (a = JSVal.undef ∨ NumInRange a 0 1) := by
  cases a <;> simp [alphaCheck, NumInRange]
  rename_i n
  cases n <;> simp [JSNum.jsge, JSNum.jsle]

/-- C4 counterexample: with r invalid and a supplied but not a number
(the string "x"), the message echoes the 3-tuple `[-1, 0, 0]`, not the
4-tuple `[-1, 0, 0, x]` the claim requires for every supplied a. -/
theorem claim4_counterexample :
    validateRGBA (.num (.fin (-1))) (.num (.fin 0)) (.num (.fin 0)) (.str "x")
      = some "Invalid rgba value [-1, 0, 0]: 'r', 'g', and 'b' must be between 0 and 255." ∧
    "Invalid rgba value [-1, 0, 0]: 'r', 'g', and 'b' must be between 0 and 255."
      ≠ "Invalid rgba value [-1, 0, 0, x]: 'r', 'g', and 'b' must be between 0 and 255." :=
  ⟨by decide, by decide⟩

/-- C4 as amended: every error message names the violated constraint set
and echoes the offending values, using the 4-tuple form exactly when a is
a number (even an out-of-range one) and the 3-tuple form otherwise (a
omitted or not a number); the alpha error always echoes the 4-tuple; in
particular validateRGBA(0, 0, 0, 1.5) reports the alpha error echoing
`[0, 0, 0, 1.5]`. -/
theorem claim4_amended :
    (∀ r g b a msg, validateRGBA r g b a = some msg →
      (¬(NumInRange r 0 255 ∧ NumInRange g 0 255 ∧ NumInRange b 0 255) ∧
        msg = "Invalid rgba value [" ++
          joinVals (if typeofStr a == "number" then [r, g, b, a] else [r, g, b]) ++ "]: " ++
          "'r', 'g', and 'b' must be between 0 and 255.") ∨
      ((NumInRange r 0 255 ∧ NumInRange g 0 255 ∧ NumInRange b 0 255) ∧
        ¬(a = JSVal.undef ∨ NumInRange a 0 1) ∧
        msg = "Invalid rgba value [" ++ joinVals [r, g, b, a] ++ "]: " ++
          "'a' must be between 0 and 1.")) ∧
    validateRGBA (.num (.fin 0)) (.num (.fin 0)) (.num (.fin 0)) (.num (.fin (Rat.divInt 3 2)))
      = some "Invalid rgba value [0, 0, 0, 1.5]: 'a' must be between 0 and 1." := by
  constructor
  · intro r g b a msg h
    unfold validateRGBA at h
    cases hrgb : (chanCheck r && chanCheck g && chanCheck b) with
    | false =>
      rw [hrgb] at h
      simp at h
      refine Or.inl ⟨?_, by rw [← h]; rfl⟩
      rintro ⟨h1, h2, h3⟩
      rw [← chanCheck_iff] at h1 h2 h3
      rw [h1, h2, h3] at hrgb
      simp at hrgb
    | true =>
      rw [hrgb] at h
      have hrgb2 := hrgb
      simp only [Bool.and_eq_true] at hrgb2
      obtain ⟨⟨hr2, hg2⟩, hb2⟩ := hrgb2
      cases halpha : alphaCheck a with
      | false =>
        rw [halpha] at h
        simp at h
        refine Or.inr ⟨⟨(chanCheck_iff r).mp hr2, (chanCheck_iff g).mp hg2,
          (chanCheck_iff b).mp hb2⟩, ?_, by rw [← h]; rfl⟩
        intro hcontra
        rw [← alphaCheck_iff, halpha] at hcontra
        simp at hcontra
      | true =>
        rw [halpha] at h
        simp at h
  · decide

/-- C4 witness: validateRGBA(300, 0, 0) with a omitted reports the r/g/b
error echoing the 3-tuple. -/
theorem claim4_witness :
    (¬(NumInRange (JSVal.num (.fin 300)) 0 255 ∧ NumInRange (JSVal.num (.fin 0)) 0 255 ∧
        NumInRange (JSVal.num (.fin 0)) 0 255) ∧
      "Invalid rgba value [300, 0, 0]: 'r', 'g', and 'b' must be between 0 and 255." =
        "Invalid rgba value [" ++
          joinVals (if typeofStr JSVal.undef == "number" then
              [JSVal.num (.fin 300), JSVal.num (.fin 0), JSVal.num (.fin 0), JSVal.undef]
            else [JSVal.num (.fin 300), JSVal.num (.fin 0), JSVal.num (.fin 0)]) ++ "]: " ++
          "'r', 'g', and 'b' must be between 0 and 255.") ∨
    ((NumInRange (JSVal.num (.fin 300)) 0 255 ∧ NumInRange (JSVal.num (.fin 0)) 0 255 ∧
        NumInRange (JSVal.num (.fin 0)) 0 255) ∧
      ¬(JSVal.undef = JSVal.undef ∨ NumInRange JSVal.undef 0 1) ∧
      "Invalid rgba value [300, 0, 0]: 'r', 'g', and 'b' must be between 0 and 255." =
        "Invalid rgba value [" ++
          joinVals [JSVal.num (.fin 300), JSVal.num (.fin 0), JSVal.num (.fin 0), JSVal.undef]
          ++ "]: " ++ "'a' must be between 0 and 1.") :=
  claim4_amended.1 (.num (.fin 300)) (.num (.fin 0)) (.num (.fin 0)) JSVal.undef
    "Invalid rgba value [300, 0, 0]: 'r', 'g', and 'b' must be between 0 and 255."
    (by decide)

/-- C5 counterexample: a Date instance satisfies `typeof === 'object'`
and has no enumerable properties, so isValue returns true on it, though
the claim names dates among the inputs that must yield false. -/
theorem claim5_counterexample : isValue .date = true := by decide

theorem isValueItems_iff (xs : List JSVal) :
    isValueItems xs = true ↔ ∀ x ∈ xs, isValue x = true := by
  induction xs with
  | nil => simp [isValueItems]
  | cons x rest ih =>
    cases hx : isValue x <;> simp [isValueItems, hx, ih]

theorem isValueProps_iff (kvs : List (String × JSVal)) :
    isValueProps kvs = true ↔ ∀ kv ∈ kvs, isValue kv.2 = true := by
  induction kvs with
  | nil => simp [isValueProps]
  | cons kv rest ih =>
    cases hx : isValue kv.2 <;> simp [isValueProps, hx, ih]

/-- C5 as amended: isValue returns true exactly on the Value grammar
extended by the one case the code's duck typing admits — any non-null
object (in particular a Date instance, whose enumerable property set is
empty) whose enumerable values are recursively Values; functions,
undefined and symbols still yield false. -/
theorem claim5_amended : ∀ v, isValue v = true ↔ Conforms v := by
  refine JSVal.indNested _
    ⟨fun h => absurd h (by decide), fun h => nomatch h⟩
    ⟨fun _ => Conforms.nullv, fun _ => rfl⟩
    (fun n => ⟨fun _ => Conforms.numv n, fun _ => rfl⟩)
    (fun s => ⟨fun _ => Conforms.strv s, fun _ => rfl⟩)
    (fun b => ⟨fun _ => Conforms.boolv b, fun _ => rfl⟩)
    (fun s => ⟨fun _ => Conforms.colorv s, fun _ => rfl⟩)
    ⟨fun _ => Conforms.collatorv, fun _ => rfl⟩
    (fun s => ⟨fun _ => Conforms.formattedv s, fun _ => rfl⟩)
    (fun s => ⟨fun _ => Conforms.paddingv s, fun _ => rfl⟩)
    (fun s => ⟨fun _ => Conforms.resolvedImagev s, fun _ => rfl⟩)
    ⟨fun h => absurd h (by decide), fun h => nomatch h⟩
    ⟨fun h => absurd h (by decide), fun h => nomatch h⟩
    ⟨fun _ => Conforms.datev, fun _ => rfl⟩
    ?_ ?_
  · intro xs ih
    rw [show isValue (.array xs) = isValueItems xs from rfl, isValueItems_iff]
    constructor
    · intro h
      exact Conforms.arrayv xs (fun x hx => (ih x hx).mp (h x hx))
    · intro h
      cases h with
      | arrayv _ h2 => exact fun x hx => (ih x hx).mpr (h2 x hx)
  · intro kvs ih
    rw [show isValue (.object kvs) = isValueProps kvs from rfl, isValueProps_iff]
    constructor
    · intro h
      exact Conforms.objectv kvs (fun kv hkv => (ih kv hkv).mp (h kv hkv))
    · intro h
      cases h with
      | objectv _ h2 => exact fun kv hkv => (ih kv hkv).mpr (h2 kv hkv)

/-- C6 counterexample: the two objects carry the same two unique keys
with equal values, differing only in insertion order — structurally
equal under the claim's order-irrelevant equality — yet toString (which
delegates to JSON.stringify, serializing keys in enumeration order)
renders them as different strings. -/
theorem claim6_counterexample :
    StructEq (.object [("a", .num (.fin 1)), ("b", .num (.fin 2))])
      (.object [("b", .num (.fin 2)), ("a", .num (.fin 1))]) ∧
    toString (.object [("a", .num (.fin 1)), ("b", .num (.fin 2))])
      ≠ toString (.object [("b", .num (.fin 2)), ("a", .num (.fin 1))]) := by
  constructor
  · refine StructEq.obj _ _ ?_ ?_
    · intro kv hkv
      simp only [List.mem_cons, List.not_mem_nil, or_false] at hkv
      rcases hkv with rfl | rfl
      · exact HasField.tail _ _ _ (HasField.head _ _ _ rfl (StructEq.same _))
      · exact HasField.head _ _ _ rfl (StructEq.same _)
    · intro lw hlw
      simp only [List.mem_cons, List.not_mem_nil, or_false] at hlw
      rcases hlw with rfl | rfl
      · exact HasField.tail _ _ _ (HasField.head _ _ _ rfl (StructEq.same _))
      · exact HasField.head _ _ _ rfl (StructEq.same _)
  · decide

theorem sEqItems_implies_eq :
    ∀ xs ys, (∀ x ∈ xs, ∀ w, sEq x w = true → x = w) →
      sEqItems xs ys = true → xs = ys := by
  intro xs
  induction xs with
  | nil =>
    intro ys _ h
    cases ys with
    | nil => rfl
    | cons y ys => simp [sEqItems] at h
  | cons x xs ih =>
    intro ys hmem h
    cases ys with
    | nil => simp [sEqItems] at h
    | cons y ys =>
      simp only [sEqItems, Bool.and_eq_true] at h
      have h1 := hmem x (by simp) y h.1
      have h2 := ih ys (fun z hz w hw => hmem z (by simp [hz]) w hw) h.2
      rw [h1, h2]

theorem sEqProps_implies_eq :
    ∀ kvs lws, (∀ kv ∈ kvs, ∀ w, sEq kv.2 w = true → kv.2 = w) →
      sEqProps kvs lws = true → kvs = lws := by
  intro kvs
  induction kvs with
  | nil =>
    intro lws _ h
    cases lws with
    | nil => rfl
    | cons lw lws => simp [sEqProps] at h
  | cons kv kvs ih =>
    intro lws hmem h
    cases lws with
    | nil => simp [sEqProps] at h
    | cons lw lws =>
      simp only [sEqProps, Bool.and_eq_true] at h
      have hk : kv.1 = lw.1 := by
        have := h.1.1
        simpa using this
      have hv : kv.2 = lw.2 := hmem kv (by simp) lw.2 h.1.2
      have hrest := ih lws (fun z hz w hw => hmem z (by simp [hz]) w hw) h.2
      have : kv = lw := Prod.ext hk hv
      rw [this, hrest]

theorem sEq_implies_eq : ∀ v w, sEq v w = true → v = w := by
  refine JSVal.indNested (fun v => ∀ w, sEq v w = true → v = w)
    ?_ ?_ ?_ ?_ ?_ ?_ ?_ ?_ ?_ ?_ ?_ ?_ ?_ ?_ ?_
  · intro w h
    cases w <;> try exact Bool.noConfusion h
    rfl
  · intro w h
    cases w <;> try exact Bool.noConfusion h
    rfl
  · intro n w h
    cases w <;> try exact Bool.noConfusion h
    exact congrArg JSVal.num (of_decide_eq_true h)
  · intro s w h
    cases w <;> try exact Bool.noConfusion h
    exact congrArg JSVal.str (eq_of_beq h)
  · intro b w h
    cases w <;> try exact Bool.noConfusion h
    exact congrArg JSVal.boolean (eq_of_beq h)
  · intro s w h
    cases w <;> try exact Bool.noConfusion h
    exact congrArg JSVal.color (eq_of_beq h)
  · intro w h
    cases w <;> try exact Bool.noConfusion h
    rfl
  · intro s w h
    cases w <;> try exact Bool.noConfusion h
    exact congrArg JSVal.formatted (eq_of_beq h)
  · intro s w h
    cases w <;> try exact Bool.noConfusion h
    exact congrArg JSVal.padding (eq_of_beq h)
  · intro s w h
    cases w <;> try exact Bool.noConfusion h
    exact congrArg JSVal.resolvedImage (eq_of_beq h)
  · intro w h
    cases w <;> try exact Bool.noConfusion h
    rfl
  · intro w h
    cases w <;> try exact Bool.noConfusion h
    rfl
  · intro w h
    cases w <;> try exact Bool.noConfusion h
    rfl
  · intro xs ih w h
    cases w <;> try exact Bool.noConfusion h
    exact congrArg JSVal.array (sEqItems_implies_eq _ _ ih h)
  · intro kvs ih w h
    cases w <;> try exact Bool.noConfusion h
    exact congrArg JSVal.object (sEqProps_implies_eq _ _ ih h)

/-- C6 as amended: toString is deterministic on structurally equal
values once object key order is also required to agree — two values that
are structurally equal with their object fields in the same enumeration
order produce byte-identical strings (insertion-order-irrelevant
equality is refuted by the counterexample). -/
theorem claim6_amended (v w : JSVal) (h : sEq v w = true) :
    toString v = toString w := by
  rw [sEq_implies_eq v w h]

/-- C6 witness: a concrete structurally equal pair and its equal
renderings. -/
theorem claim6_witness :
    sEq (.object [("a", .num (.fin 1))]) (.object [("a", .num (.fin 1))]) = true ∧
    toString (.object [("a", .num (.fin 1))]) = toString (.object [("a", .num (.fin 1))]) :=
  ⟨by decide, claim6_amended _ _ (by decide)⟩

/-- C7 counterexample: typeOf run twice over the same array shape
produces two freshly allocated Array descriptors, which are not
identity-equal, against the claim's demand of identity equality for
every type typeOf returns. -/
theorem claim7_counterexample :
    identEq (typeOf (.array [.num (.fin 1)])) (typeOf (.array [.num (.fin 1)])) = false := by
  decide

/-- C7 as amended: typeOf is deterministic — re-running it on a value of
the same shape yields a structurally identical Type — and the two
results are identity-equal exactly when the type is one of the singleton
(non-Array) descriptors; two separately inferred Array types agree
structurally but are never identity-equal. -/
theorem claim7_amended (v w : JSVal) (h : v = w) :
    typeOf v = typeOf w ∧ identEq (typeOf v) (typeOf w) = !(typeOf v).isArr := by
  subst h
  exact ⟨rfl, identEq_self _⟩

/-- C7 witness: a number value, whose singleton Number type is
identity-equal across the two runs. -/
theorem claim7_witness :
    typeOf (.num (.fin 7)) = typeOf (.num (.fin 7)) ∧
    identEq (typeOf (.num (.fin 7))) (typeOf (.num (.fin 7))) = !(typeOf (.num (.fin 7))).isArr :=
  claim7_amended _ _ rfl

/-- C8: toString maps null to the empty string; it maps every primitive
to its conventional textual form — a string passes through unchanged,
both booleans print as "true"/"false", and every number goes through the
ECMAScript number-to-string conversion, with toString(42) = "42" as the
claim's concrete instance; and it maps each wrapper (Color, Formatted,
Padding, ResolvedImage) to that wrapper's own canonical string form. -/
theorem claim8_toString_primitives :
    toString .null = "" ∧
    (∀ s, toString (.str s) = s) ∧
    (∀ b, toString (.boolean b) = (if b then "true" else "false")) ∧
    toString (.boolean true) = "true" ∧
    (∀ n, toString (.num n) = JSNum.toStr n) ∧
    toString (.num (.fin 42)) = "42" ∧
    (∀ s, toString (.color s) = s) ∧ (∀ s, toString (.formatted s) = s) ∧
    (∀ s, toString (.padding s) = s) ∧ (∀ s, toString (.resolvedImage s) = s) :=
  ⟨rfl, fun _ => rfl, fun _ => rfl, rfl, fun _ => rfl, by decide,
   fun _ => rfl, fun _ => rfl, fun _ => rfl, fun _ => rfl⟩

theorem allEchoExact_iff (xs : List JSVal) :
    allEchoExact xs = true ↔ ∀ x ∈ xs, echoExact x = true := by
  induction xs with
  | nil => simp [allEchoExact]
  | cons x rest ih => simp [allEchoExact, Bool.and_eq_true, ih]

theorem anyElemThrows_eq_false (xs : List JSVal) :
    anyElemThrows xs = false ↔ ∀ x ∈ xs, elemThrows x = false := by
  induction xs with
  | nil => simp [anyElemThrows]
  | cons x rest ih => simp [anyElemThrows, Bool.or_eq_false_iff, ih]

theorem echoExact_elemThrows : ∀ v, echoExact v = true → elemThrows v = false := by
  refine JSVal.indNested (fun v => echoExact v = true → elemThrows v = false)
    (fun _ => rfl) (fun _ => rfl) (fun _ _ => rfl) (fun _ _ => rfl) (fun _ _ => rfl)
    (fun _ _ => rfl) (fun _ => rfl) (fun _ _ => rfl) (fun _ _ => rfl) (fun _ _ => rfl)
    (fun _ => rfl) (fun h => absurd h (by decide)) (fun _ => rfl) ?_ (fun _ _ _ => rfl)
  intro xs ih h
  rw [show echoExact (.array xs) = allEchoExact xs from rfl, allEchoExact_iff] at h
  show anyElemThrows xs = false
  rw [anyElemThrows_eq_false]
  exact fun x hx => ih x hx (h x hx)

/-- C9 counterexample: validateRGBA(Symbol(), 0, 0) reaches the r/g/b
error branch (a symbol is not a number), and the `value.join(', ')`
there applies ToString to the Symbol, which throws a TypeError — the
call throws instead of returning the r/g/b range error string, so
validateRGBA is not total and does not avoid throwing on arbitrary
inputs. -/
theorem claim9_counterexample :
    chanCheck JSVal.symbol = false ∧
    validateRGBAThrows JSVal.symbol (.num (.fin 0)) (.num (.fin 0)) JSVal.undef = true :=
  ⟨rfl, by decide⟩

/-- C9 as amended: validateRGBA returns the no-error result exactly when
r, g, b are numbers in [0, 255] and a is undefined or a number in
[0, 1]; the call throws (a TypeError out of `value.join`) exactly when
an error branch echoes a tuple containing a Symbol, directly or inside
a nested array; on inputs whose echo text is host-independent (no
function, Date, or Symbol values — `echoExact`), it does not throw, and
returns the r/g/b range error string whenever some of r, g, b fails
(including non-number arguments such as strings, null, or undefined),
and the alpha range error string when r, g, b pass but a is supplied
and invalid. -/
theorem claim9_amended (r g b a : JSVal) :
    (validateRGBA r g b a = none ↔
      (NumInRange r 0 255 ∧ NumInRange g 0 255 ∧ NumInRange b 0 255 ∧
        (a = JSVal.undef ∨ NumInRange a 0 1))) ∧
    (echoExact r = true → echoExact g = true → echoExact b = true → echoExact a = true →
      validateRGBAThrows r g b a = false ∧
      (¬(NumInRange r 0 255 ∧ NumInRange g 0 255 ∧ NumInRange b 0 255) →
        validateRGBA r g b a = some (rgbMessage r g b a)) ∧
      ((NumInRange r 0 255 ∧ NumInRange g 0 255 ∧ NumInRange b 0 255) →
        ¬(a = JSVal.undef ∨ NumInRange a 0 1) →
        validateRGBA r g b a = some (alphaMessage r g b a))) := by
  constructor
  · rw [← chanCheck_iff, ← chanCheck_iff, ← chanCheck_iff, ← alphaCheck_iff]
    cases hr : chanCheck r <;> cases hg : chanCheck g <;> cases hb : chanCheck b <;>
      cases ha : alphaCheck a <;> simp [validateRGBA, hr, hg, hb, ha]
  · intro her heg heb hea
    have hr' := echoExact_elemThrows r her
    have hg' := echoExact_elemThrows g heg
    have hb' := echoExact_elemThrows b heb
    have ha' := echoExact_elemThrows a hea
    have hthrow3 : anyElemThrows [r, g, b] = false := by
      simp [anyElemThrows, hr', hg', hb']
    have hthrow4 : anyElemThrows [r, g, b, a] = false := by
      simp [anyElemThrows, hr', hg', hb', ha']
    refine ⟨?_, ?_, ?_⟩
    · unfold validateRGBAThrows
      split
      · split
        · exact hthrow4
        · exact hthrow3
      · split
        · exact hthrow4
        · rfl
    · intro h
      rw [← chanCheck_iff, ← chanCheck_iff, ← chanCheck_iff] at h
      have hc : (chanCheck r && chanCheck g && chanCheck b) = false := by
        cases hrr : chanCheck r <;> cases hgg : chanCheck g <;> cases hbb : chanCheck b <;>
          simp_all
      simp [validateRGBA, hc]
    · intro h1 h2
      rw [← chanCheck_iff, ← chanCheck_iff, ← chanCheck_iff] at h1
      rw [← alphaCheck_iff] at h2
      have hc : (chanCheck r && chanCheck g && chanCheck b) = true := by
        simp [h1.1, h1.2.1, h1.2.2]
      have hav : alphaCheck a = false := by
        cases hx : alphaCheck a
        · rfl
        · exact absurd hx h2
      simp [validateRGBA, hc, hav]

/-- C9 witness: a non-number r (a string, whose echo text is exact) does
not throw and produces the r/g/b range error string. -/
theorem claim9_witness :
    validateRGBAThrows (.str "x") (.num (.fin 0)) (.num (.fin 0)) JSVal.undef = false ∧
    validateRGBA (.str "x") (.num (.fin 0)) (.num (.fin 0)) JSVal.undef
      = some (rgbMessage (.str "x") (.num (.fin 0)) (.num (.fin 0)) JSVal.undef) := by
  have h := (claim9_amended (.str "x") (.num (.fin 0)) (.num (.fin 0)) JSVal.undef).2
    rfl rfl rfl rfl
  exact ⟨h.1, h.2.1 (by simp [NumInRange])⟩

/-- C10: NaN, Infinity and -Infinity all satisfy `typeof === 'number'`,
so isValue accepts them and typeOf classifies each as the singleton
Number type. -/
theorem claim10_nonfinite_numbers :
    isValue (.num .nan) = true ∧ isValue (.num .inf) = true ∧
    isValue (.num .negInf) = true ∧
    typeOf (.num .nan) = NumberType ∧ typeOf (.num .inf) = NumberType ∧
    typeOf (.num .negInf) = NumberType :=
  ⟨rfl, rfl, rfl, rfl, rfl, rfl⟩

end MaplibreValues
